import Mathlib

/-!
Shallow embedding of the Skill-Exchange backend (src/server.js).

The server is a set of Express route handlers over a Prisma-managed
relational store.  Each handler performs a few single-row queries and at
most one write.  We embed the store as an explicit `DB` record of row
lists and each route handler as a pure function `DB → result × DB`.

Error kinds follow the specification's taxonomy (§7); in the HTTP layer
several of them share status 400 but carry distinct messages, so they are
distinguishable observations:
  * `NotFound`         — 404 ("Video not found" / "Not found" / "File missing")
  * `Forbidden`        — 403 ("Not your request" / "No permission")
  * `InvalidOperation` — 400 ("Cannot request your own video")
  * `Conflict`         — 400 ("Request already pending")
  * `ValidationError`  — 400 ("Video required")
  * `DbError`          — a storage-layer rejection surfaced by the handler
-/

namespace SkillExchange

/-- Error kinds surfaced by the route handlers. -/
inductive ApiError
  | NotFound
  | Forbidden
  | InvalidOperation
  | Conflict
  | ValidationError
  | DbError
deriving DecidableEq, Repr

/-- Request lifecycle status.  In the store these are the strings
"pending" / "accepted" / "declined". -/
inductive ReqStatus
  | pending
  | accepted
  | declined
deriving DecidableEq, Repr

/-- A Skill row: `prisma.skill` (id, title, description, videoPath,
ownerId, createdAt).  `description` is optional in the request body. -/
structure Skill where
  id : Nat
  title : String
  description : Option String
  videoPath : String
  ownerId : Nat
  createdAt : Nat
deriving DecidableEq, Repr

/-- A Want row: `prisma.want` (id, title, description, ownerId, createdAt). -/
structure Want where
  id : Nat
  title : String
  description : Option String
  ownerId : Nat
  createdAt : Nat
deriving DecidableEq, Repr

/-- A Request row: `prisma.request` (id, fromId, toId, skillId, status,
createdAt). -/
structure Request where
  id : Nat
  fromId : Nat
  toId : Nat
  skillId : Nat
  status : ReqStatus
  createdAt : Nat
deriving DecidableEq, Repr

/-- A Permission row: `prisma.permission`, keyed by the compound unique
key `userId_videoId`. -/
structure Permission where
  userId : Nat
  videoId : Nat
deriving DecidableEq, Repr

/-- The relational store plus the upload directory.  `files` models the
set of file names present in `UPLOAD_DIR` (checked by `fs.existsSync`);
`nextId` models the store's id autoincrement counter. -/
structure DB where
  skills : List Skill
  wants : List Want
  requests : List Request
  permissions : List Permission
  files : List String
  nextId : Nat
deriving DecidableEq, Repr

/-- `prisma.skill.findUnique({ where: { id } })`. -/
def findSkill (db : DB) (sid : Nat) : Option Skill :=
  db.skills.find? (fun s => s.id == sid)

/-- `prisma.request.findUnique({ where: { id } })`. -/
def findRequest (db : DB) (rid : Nat) : Option Request :=
  db.requests.find? (fun r => r.id == rid)

/-- `prisma.request.findFirst({ where: { fromId, skillId, status: "pending" } })`. -/
def findPending (db : DB) (uid sid : Nat) : Option Request :=
  db.requests.find?
    (fun r => r.fromId == uid && r.skillId == sid && r.status == ReqStatus.pending)

/-- `prisma.permission.findUnique({ where: { userId_videoId: { userId, videoId } } })`. -/
def findPerm (db : DB) (uid sid : Nat) : Option Permission :=
  db.permissions.find? (fun p => p.userId == uid && p.videoId == sid)

/-- `prisma.permission.upsert({ where: userId_videoId, update: {}, create: ... })`:
if a row with the compound key exists it is left unchanged (empty update),
otherwise a new row is created. -/
def upsertPerm (uid sid : Nat) (ps : List Permission) : List Permission :=
  if ps.any (fun p => p.userId == uid && p.videoId == sid) then ps
  else ps ++ [{ userId := uid, videoId := sid }]

/-- `prisma.request.update({ where: { id }, data: { status } })` applied to
the row list: rewrites the status of the row(s) with the given id. -/
def setStatus (rid : Nat) (st : ReqStatus) (rs : List Request) : List Request :=
  rs.map (fun q => if q.id == rid then { q with status := st } else q)

/-- `POST /requests/:videoId` (src/server.js:213-233).  Looks up the skill
(404 if absent), rejects a self-request (400 "Cannot request your own
video"), rejects a duplicate pending request (400 "Request already
pending"), otherwise inserts a new Request row and returns it.  The new
row's `status` field is the store's column default; the handler sends no
status value.  The default value `pending` is modelled from the spec
("Created in state `pending`"), the Prisma schema file not being part of
the sources. -/
def createRequest (uid sid : Nat) (db : DB) : Except ApiError Request × DB :=
  match findSkill db sid with
  | none => (.error .NotFound, db)
  | some video =>
    if video.ownerId == uid then (.error .InvalidOperation, db)
    else
      match findPending db uid sid with
      | some _ => (.error .Conflict, db)
      | none =>
        let r : Request :=
          { id := db.nextId, fromId := uid, toId := video.ownerId, skillId := sid,
            status := ReqStatus.pending, createdAt := db.nextId }
        (.ok r, { db with requests := db.requests ++ [r], nextId := db.nextId + 1 })

/-- `POST /requests/:id/accept` (src/server.js:262-281).  404 if the request
row is absent, 403 if the caller is not the request's `toId`; otherwise
sets the status to `accepted`, upserts a Permission row keyed by
(fromId, skillId), and returns the updated request. -/
def acceptRequest (uid rid : Nat) (db : DB) : Except ApiError Request × DB :=
  match findRequest db rid with
  | none => (.error .NotFound, db)
  | some r =>
    if r.toId != uid then (.error .Forbidden, db)
    else
      (.ok { r with status := ReqStatus.accepted },
       { db with requests := setStatus rid ReqStatus.accepted db.requests,
                 permissions := upsertPerm r.fromId r.skillId db.permissions })

/-- `POST /requests/:id/decline` (src/server.js:284-296).  Same lookup and
authorization as accept; sets the status to `declined`; touches nothing
else. -/
def declineRequest (uid rid : Nat) (db : DB) : Except ApiError Request × DB :=
  match findRequest db rid with
  | none => (.error .NotFound, db)
  | some r =>
    if r.toId != uid then (.error .Forbidden, db)
    else
      (.ok { r with status := ReqStatus.declined },
       { db with requests := setStatus rid ReqStatus.declined db.requests })

/-- `GET /stream/:videoId` (src/server.js:315-331).  Looks up the skill
(404 if absent); if the caller is not the owner and holds no Permission
row, 403 ("No permission"); then 404 ("File missing") if the stored file
is absent from the upload directory; otherwise serves the file. -/
def streamVideo (uid sid : Nat) (db : DB) : Except ApiError String :=
  match findSkill db sid with
  | none => .error .NotFound
  | some video =>
    if video.ownerId != uid && (findPerm db uid sid).isNone then .error .Forbidden
    else if db.files.contains video.videoPath then .ok video.videoPath
    else .error .NotFound

/-- Character-list prefix test (needle matches at the head of the haystack). -/
def matchesAt : List Char → List Char → Bool
  | [], _ => true
  | _ :: _, [] => false
  | a :: as, b :: bs => a == b && matchesAt as bs

/-- Character-list substring containment. -/
def containsSub (needle : List Char) : List Char → Bool
  | [] => matchesAt needle []
  | b :: bs => matchesAt needle (b :: bs) || containsSub needle bs

/-- Lower-cased character list of a string. -/
def lowerChars (s : String) : List Char := s.toList.map Char.toLower

/-- The store's `title: { contains: w, mode: "insensitive" }` predicate:
case-insensitive substring containment. -/
def containsCI (haystack needle : String) : Bool :=
  containsSub (lowerChars needle) (lowerChars haystack)

/-- `orderBy: { createdAt: "desc" }` ordering on skills: `a` may come
before `b` when its creation time is at least `b`'s. -/
def skillAfter (a b : Skill) : Prop := b.createdAt ≤ a.createdAt

instance : DecidableRel skillAfter := fun a b => Nat.decLe b.createdAt a.createdAt

instance : IsTotal Skill skillAfter := ⟨fun a b => Nat.le_total b.createdAt a.createdAt⟩

instance : IsTrans Skill skillAfter := ⟨fun _ _ _ hab hbc => le_trans hbc hab⟩

/-- Same ordering on requests. -/
def requestAfter (a b : Request) : Prop := b.createdAt ≤ a.createdAt

instance : DecidableRel requestAfter := fun a b => Nat.decLe b.createdAt a.createdAt

instance : IsTotal Request requestAfter := ⟨fun a b => Nat.le_total b.createdAt a.createdAt⟩

instance : IsTrans Request requestAfter := ⟨fun _ _ _ hab hbc => le_trans hbc hab⟩

/-- `GET /matches` (src/server.js:183-206).  Fetches the caller's wants; if
there are none, returns `[]`.  Otherwise queries skills not owned by the
caller whose title contains (case-insensitively) at least one want title,
ordered by creation time descending.  The sort models the store's
`orderBy` clause. -/
def matchesFor (uid : Nat) (db : DB) : List Skill :=
  let myWants := db.wants.filter (fun w => w.ownerId == uid)
  if myWants.isEmpty then []
  else
    List.insertionSort skillAfter
      (db.skills.filter
        (fun s => s.ownerId != uid && myWants.any (fun w => containsCI s.title w.title)))

/-- `GET /requests` (src/server.js:236-259).  `type === "outgoing"` selects
rows with `fromId` = caller; any other value of `type` (including absent)
selects rows with `toId` = caller; ordered by creation time descending. -/
def listRequests (uid : Nat) (ty : Option String) (db : DB) : List Request :=
  let keep : Request → Bool :=
    if ty == some "outgoing" then (fun r => r.fromId == uid) else (fun r => r.toId == uid)
  List.insertionSort requestAfter (db.requests.filter keep)

/-- `POST /skills` (src/server.js:130-147).  The handler checks only that a
file was uploaded (400 "Video required" otherwise) and then calls
`prisma.skill.create` with the body's title and description.  A missing
(`undefined`) title is rejected by the store (required column), surfaced
by the catch as a 400 — modelled as `DbError`; an empty-string title is a
legal column value and the row is stored. -/
def createSkill (uid : Nat) (title description : Option String) (hasFile : Bool)
    (fileName : String) (db : DB) : Except ApiError Skill × DB :=
  if !hasFile then (.error .ValidationError, db)
  else
    match title with
    | none => (.error .DbError, db)
    | some t =>
      let sk : Skill :=
        { id := db.nextId, title := t, description := description,
          videoPath := fileName, ownerId := uid, createdAt := db.nextId }
      (.ok sk, { db with skills := db.skills ++ [sk], nextId := db.nextId + 1 })

/-- `POST /wants` (src/server.js:165-171).  No handler validation at all:
the body's title and description go straight to `prisma.want.create`.  A
missing title is rejected by the store (modelled as `DbError`); an
empty-string title is stored. -/
def createWant (uid : Nat) (title description : Option String) (db : DB) :
    Except ApiError Want × DB :=
  match title with
  | none => (.error .DbError, db)
  | some t =>
    let w : Want :=
      { id := db.nextId, title := t, description := description,
        ownerId := uid, createdAt := db.nextId }
    (.ok w, { db with wants := db.wants ++ [w], nextId := db.nextId + 1 })

/-- Number of Permission rows carrying a given compound key. -/
def permKeyCount (uid sid : Nat) (ps : List Permission) : Nat :=
  ps.countP (fun p => p.userId == uid && p.videoId == sid)

/-- `n` consecutive accept calls on the same request by the same caller. -/
def iterAccept (uid rid : Nat) : Nat → DB → DB
  | 0, db => db
  | n + 1, db => iterAccept uid rid n (acceptRequest uid rid db).2

/-! ### Concrete sample data, used to instantiate the theorems -/

/-- Sample skill, owned by user 1, with its file stored. -/
def skA : Skill :=
  { id := 1, title := "Cooking Basics", description := none,
    videoPath := "v1.mp4", ownerId := 1, createdAt := 10 }

/-- Sample pending request: user 2 asks user 1 for skill 1. -/
def reqA : Request :=
  { id := 5, fromId := 2, toId := 1, skillId := 1,
    status := ReqStatus.pending, createdAt := 11 }

/-- Sample already-accepted request: user 2 ↔ user 1, skill 1. -/
def reqB : Request :=
  { id := 7, fromId := 2, toId := 1, skillId := 1,
    status := ReqStatus.accepted, createdAt := 12 }

/-- Store holding skill 1 and the pending request `reqA`. -/
def dbReq : DB :=
  { skills := [skA], wants := [], requests := [reqA], permissions := [],
    files := ["v1.mp4"], nextId := 6 }

/-- Store holding skill 1 and the resolved request `reqB`. -/
def dbRes : DB :=
  { skills := [skA], wants := [], requests := [reqB], permissions := [],
    files := ["v1.mp4"], nextId := 8 }

/-! ### C2 — accept / decline lookup and authorization -/

/-- C2: both Accept and Decline answer `NotFound` when no request with the
given id exists; when the request exists they answer `Forbidden` exactly
when the caller differs from the request's `toId`; and when the caller is
the `toId`, Accept returns the request with status `accepted` (upserting
the Permission row) and Decline returns it with status `declined`. -/
theorem C2_accept_decline_authorization (u rid : Nat) (db : DB) :
    (findRequest db rid = none →
      acceptRequest u rid db = (.error .NotFound, db) ∧
      declineRequest u rid db = (.error .NotFound, db)) ∧
    (∀ r, findRequest db rid = some r →
      ((acceptRequest u rid db).1 = .error .Forbidden ↔ r.toId ≠ u) ∧
      ((declineRequest u rid db).1 = .error .Forbidden ↔ r.toId ≠ u) ∧
      (r.toId = u →
        acceptRequest u rid db =
          (.ok { r with status := ReqStatus.accepted },
           { db with requests := setStatus rid ReqStatus.accepted db.requests,
                     permissions := upsertPerm r.fromId r.skillId db.permissions }) ∧
        declineRequest u rid db =
          (.ok { r with status := ReqStatus.declined },
           { db with requests := setStatus rid ReqStatus.declined db.requests }))) := by
  constructor
  · intro h
    constructor <;> simp [acceptRequest, declineRequest, h]
  · intro r hr
    by_cases hto : r.toId = u
    · refine ⟨?_, ?_, fun _ => ⟨?_, ?_⟩⟩ <;>
        simp [acceptRequest, declineRequest, hr, hto]
    · refine ⟨?_, ?_, fun h => absurd h hto⟩ <;>
        simp [acceptRequest, declineRequest, hr, hto]

/-- C2 witness at concrete inputs: user 1 (the `toId`) accepts request 5
successfully, user 3 is rejected with `Forbidden`, and a missing request id
yields `NotFound`. -/
theorem C2_accept_decline_authorization_witness :
    acceptRequest 1 5 dbReq =
      (.ok { reqA with status := ReqStatus.accepted },
       { dbReq with requests := setStatus 5 ReqStatus.accepted dbReq.requests,
                    permissions := upsertPerm reqA.fromId reqA.skillId dbReq.permissions }) ∧
    (acceptRequest 3 5 dbReq).1 = .error .Forbidden ∧
    acceptRequest 1 99 dbReq = (.error .NotFound, dbReq) := by
  refine ⟨?_, ?_, ?_⟩
  · exact (((C2_accept_decline_authorization 1 5 dbReq).2 reqA (by decide)).2.2 (by decide)).1
  · exact ((C2_accept_decline_authorization 3 5 dbReq).2 reqA (by decide)).1.mpr (by decide)
  · exact ((C2_accept_decline_authorization 1 99 dbReq).1 (by decide)).1

/-! ### C6 — no check on the current status of a request -/

/-- C6: Accept and Decline never inspect the request's current status: a
request already resolved (`accepted` or `declined`) is accepted or declined
again by its `toId` without error, the status being overwritten, and Accept
re-runs the Permission upsert. -/
theorem C6_terminal_overwrite (u rid : Nat) (db : DB) (r : Request)
    (hr : findRequest db rid = some r) (hto : r.toId = u)
    (hres : r.status = ReqStatus.accepted ∨ r.status = ReqStatus.declined) :
    acceptRequest u rid db =
      (.ok { r with status := ReqStatus.accepted },
       { db with requests := setStatus rid ReqStatus.accepted db.requests,
                 permissions := upsertPerm r.fromId r.skillId db.permissions }) ∧
    declineRequest u rid db =
      (.ok { r with status := ReqStatus.declined },
       { db with requests := setStatus rid ReqStatus.declined db.requests }) := by
  constructor <;> simp [acceptRequest, declineRequest, hr, hto]

/-- C6 witness: request 7 is already `accepted`, yet user 1 both re-accepts
and declines it successfully, overwriting the status each time. -/
theorem C6_terminal_overwrite_witness :
    acceptRequest 1 7 dbRes =
      (.ok { reqB with status := ReqStatus.accepted },
       { dbRes with requests := setStatus 7 ReqStatus.accepted dbRes.requests,
                    permissions := upsertPerm reqB.fromId reqB.skillId dbRes.permissions }) ∧
    declineRequest 1 7 dbRes =
      (.ok { reqB with status := ReqStatus.declined },
       { dbRes with requests := setStatus 7 ReqStatus.declined dbRes.requests }) :=
  C6_terminal_overwrite 1 7 dbRes reqB (by decide) (by decide) (Or.inl (by decide))

/-! ### C7 — decline leaves everything but the request's status alone -/

/-- C7: a successful Decline returns the request with status `declined` and
changes nothing in the store except the status field of the row(s) with the
given id: permissions, skills, wants, files and the id counter are all
unchanged, and every other request row is still present, untouched. -/
theorem C7_decline_frame (u rid : Nat) (db : DB) (r : Request)
    (hr : findRequest db rid = some r) (hto : r.toId = u) :
    (declineRequest u rid db).1 = .ok { r with status := ReqStatus.declined } ∧
    (declineRequest u rid db).2.permissions = db.permissions ∧
    (declineRequest u rid db).2.skills = db.skills ∧
    (declineRequest u rid db).2.wants = db.wants ∧
    (declineRequest u rid db).2.files = db.files ∧
    (declineRequest u rid db).2.nextId = db.nextId ∧
    (declineRequest u rid db).2.requests = setStatus rid ReqStatus.declined db.requests ∧
    (∀ q ∈ db.requests, q.id ≠ rid → q ∈ (declineRequest u rid db).2.requests) := by
  have hdec : declineRequest u rid db =
      (.ok { r with status := ReqStatus.declined },
       { db with requests := setStatus rid ReqStatus.declined db.requests }) := by
    simp [declineRequest, hr, hto]
  refine ⟨by rw [hdec], by rw [hdec], by rw [hdec], by rw [hdec], by rw [hdec],
    by rw [hdec], by rw [hdec], ?_⟩
  intro q hq hne
  rw [hdec]
  have hid : (q.id == rid) = false := by simpa using hne
  have hfix : (if q.id == rid then { q with status := ReqStatus.declined } else q) = q := by
    rw [hid]
    rfl
  exact hfix ▸ List.mem_map_of_mem _ hq

/-- C7 witness: user 1 declines request 5; the permissions list (and every
other table) is untouched. -/
theorem C7_decline_frame_witness :
    (declineRequest 1 5 dbReq).1 = .ok { reqA with status := ReqStatus.declined } ∧
    (declineRequest 1 5 dbReq).2.permissions = dbReq.permissions ∧
    (declineRequest 1 5 dbReq).2.skills = dbReq.skills := by
  obtain ⟨h1, h2, h3, -⟩ := C7_decline_frame 1 5 dbReq reqA (by decide) (by decide)
  exact ⟨h1, h2, h3⟩

/-! ### C9 — list-requests direction defaults to incoming -/

/-- Two more sample requests for the listing tests: one incoming for user 1
and one outgoing from user 1. -/
def reqIn : Request :=
  { id := 21, fromId := 3, toId := 1, skillId := 1,
    status := ReqStatus.pending, createdAt := 13 }

/-- Outgoing sample request from user 1. -/
def reqOut : Request :=
  { id := 22, fromId := 1, toId := 4, skillId := 9,
    status := ReqStatus.pending, createdAt := 14 }

/-- Store holding one incoming and one outgoing request for user 1. -/
def dbList : DB :=
  { skills := [skA], wants := [], requests := [reqIn, reqOut], permissions := [],
    files := [], nextId := 30 }

/-- C9: the list-requests operation filters by `fromId` = caller exactly
when the `type` parameter is the string "outgoing"; for every other value,
including an absent parameter, it filters by `toId` = caller. -/
theorem C9_list_requests_direction (u : Nat) (ty : Option String) (db : DB) :
    (ty = some "outgoing" →
      ∀ r, r ∈ listRequests u ty db ↔ r ∈ db.requests ∧ r.fromId = u) ∧
    (ty ≠ some "outgoing" →
      ∀ r, r ∈ listRequests u ty db ↔ r ∈ db.requests ∧ r.toId = u) := by
  constructor
  · intro h r
    unfold listRequests
    rw [List.mem_insertionSort]
    simp [h, List.mem_filter]
  · intro h r
    unfold listRequests
    rw [List.mem_insertionSort]
    have hb : (ty == some "outgoing") = false := by simpa using h
    simp [hb, List.mem_filter]

/-- C9 witness: with no `type` parameter user 1 sees the incoming request
(and not the outgoing one); with `type=outgoing` the outgoing one. -/
theorem C9_list_requests_direction_witness :
    reqIn ∈ listRequests 1 none dbList ∧
    reqOut ∈ listRequests 1 (some "outgoing") dbList ∧
    ¬ reqOut ∈ listRequests 1 none dbList := by
  refine ⟨?_, ?_, ?_⟩
  · exact (((C9_list_requests_direction 1 none dbList).2 (by decide)) reqIn).mpr
      (by constructor <;> decide)
  · exact (((C9_list_requests_direction 1 (some "outgoing") dbList).1 rfl) reqOut).mpr
      (by constructor <;> decide)
  · intro hmem
    have h := (((C9_list_requests_direction 1 none dbList).2 (by decide)) reqOut).mp hmem
    exact absurd h.2 (by decide)

/-! ### C5 — the matcher -/

/-- Sample want of user 1. -/
def wantG : Want :=
  { id := 1, title := "guitar", description := none, ownerId := 1, createdAt := 1 }

/-- Sample skill of user 2 whose title contains "guitar" case-insensitively. -/
def skG : Skill :=
  { id := 2, title := "Guitar Lessons for Beginners", description := none,
    videoPath := "g.mp4", ownerId := 2, createdAt := 3 }

/-- Sample skill of user 1 itself, also matching the want title. -/
def skOwn : Skill :=
  { id := 3, title := "Guitar Tricks", description := none,
    videoPath := "t.mp4", ownerId := 1, createdAt := 4 }

/-- Store for the matcher tests. -/
def dbMatch : DB :=
  { skills := [skG, skOwn], wants := [wantG], requests := [], permissions := [],
    files := [], nextId := 50 }

/-- C5: the matcher returns `[]` when the caller owns no wants; otherwise a
skill is in the result exactly when it is in the catalog, is not owned by
the caller, and its title contains (case-insensitively) the title of one of
the caller's wants; the result is ordered by creation time descending; and
when skill ids are unique in the catalog each skill appears at most once. -/
theorem C5_matcher (u : Nat) (db : DB) :
    (db.wants.filter (fun w => w.ownerId == u) = [] → matchesFor u db = []) ∧
    (∀ sk, sk ∈ matchesFor u db ↔
      sk ∈ db.skills ∧ sk.ownerId ≠ u ∧
      ∃ w ∈ db.wants, w.ownerId = u ∧ containsCI sk.title w.title = true) ∧
    List.Sorted skillAfter (matchesFor u db) ∧
    ((db.skills.map Skill.id).Nodup → ((matchesFor u db).map Skill.id).Nodup) := by
  refine ⟨?_, ?_, ?_, ?_⟩
  · intro h
    simp [matchesFor, h]
  · intro sk
    by_cases hw : db.wants.filter (fun w => w.ownerId == u) = []
    · have hall : ∀ w ∈ db.wants, ¬ w.ownerId = u := by
        simpa using (List.filter_eq_nil_iff.mp hw)
      simp only [matchesFor, hw, List.isEmpty_nil, if_pos]
      constructor
      · intro h
        exact absurd h (List.not_mem_nil sk)
      · rintro ⟨-, -, w, hwmem, hwo, -⟩
        exact absurd hwo (hall w hwmem)
    · have hne : (db.wants.filter (fun w => w.ownerId == u)).isEmpty = false := by
        simpa [List.isEmpty_iff] using hw
      simp only [matchesFor, hne, Bool.false_eq_true, if_neg, not_false_iff]
      rw [List.mem_insertionSort, List.mem_filter]
      simp [List.any_eq_true, List.mem_filter, and_assoc]
  · by_cases hw : (db.wants.filter (fun w => w.ownerId == u)).isEmpty = true
    · simp [matchesFor, hw]
    · have hne : (db.wants.filter (fun w => w.ownerId == u)).isEmpty = false := by
        simpa using hw
      simp only [matchesFor, hne, Bool.false_eq_true, if_neg, not_false_iff]
      exact List.sorted_insertionSort skillAfter _
  · intro hnd
    by_cases hw : (db.wants.filter (fun w => w.ownerId == u)).isEmpty = true
    · simp [matchesFor, hw]
    · have hne : (db.wants.filter (fun w => w.ownerId == u)).isEmpty = false := by
        simpa using hw
      simp only [matchesFor, hne, Bool.false_eq_true, if_neg, not_false_iff]
      have hperm := (List.perm_insertionSort skillAfter
        (db.skills.filter (fun s => s.ownerId != u &&
          (db.wants.filter (fun w => w.ownerId == u)).any
            (fun w => containsCI s.title w.title)))).map Skill.id
      rw [hperm.nodup_iff]
      exact List.Nodup.sublist ((List.filter_sublist _).map Skill.id) hnd

/-- C5 witness: user 1 wants "guitar"; the matcher returns user 2's
"Guitar Lessons for Beginners" but excludes user 1's own matching skill. -/
theorem C5_matcher_witness :
    skG ∈ matchesFor 1 dbMatch ∧ ¬ skOwn ∈ matchesFor 1 dbMatch := by
  constructor
  · exact ((C5_matcher 1 dbMatch).2.1 skG).mpr
      ⟨by decide, by decide, wantG, by decide, by decide, by decide⟩
  · intro hmem
    have h := ((C5_matcher 1 dbMatch).2.1 skOwn).mp hmem
    exact absurd h.2.1 (by decide)

/-! ### Helper lemmas about the store primitives -/

/-- Looking up a request by id after a status update finds the updated row. -/
theorem find_setStatus_some (rid : Nat) (st : ReqStatus) :
    ∀ {rs : List Request} {r : Request},
      rs.find? (fun q => q.id == rid) = some r →
      (setStatus rid st rs).find? (fun q => q.id == rid) = some { r with status := st }
  | [], r => by
    intro h
    simp [List.find?] at h
  | a :: t, r => by
    intro hr
    by_cases h : (a.id == rid) = true
    · rw [List.find?_cons_of_pos (p := fun q => q.id == rid) t h] at hr
      cases hr
      have hset : setStatus rid st (a :: t) = { a with status := st } :: setStatus rid st t := by
        simp only [setStatus, List.map_cons, if_pos h]
      rw [hset]
      exact List.find?_cons_of_pos (p := fun q => q.id == rid)
        (a := { a with status := st }) (setStatus rid st t) h
    · have hb : ¬ ((a.id == rid) = true) := h
      rw [List.find?_cons_of_neg (p := fun q => q.id == rid) t hb] at hr
      have hset : setStatus rid st (a :: t) = a :: setStatus rid st t := by
        simp only [setStatus, List.map_cons, if_neg hb]
      rw [hset, List.find?_cons_of_neg (p := fun q => q.id == rid) (setStatus rid st t) hb]
      exact find_setStatus_some rid st hr

/-- The upsert leaves the row list unchanged when the key is present. -/
theorem upsertPerm_of_found {uid sid : Nat} {ps : List Permission}
    (h : ps.any (fun p => p.userId == uid && p.videoId == sid) = true) :
    upsertPerm uid sid ps = ps := if_pos h

/-- After the upsert a row with the key is always found. -/
theorem upsertPerm_find (uid sid : Nat) (ps : List Permission) :
    ∃ p, (upsertPerm uid sid ps).find?
      (fun p => p.userId == uid && p.videoId == sid) = some p := by
  unfold upsertPerm
  by_cases h : ps.any (fun p => p.userId == uid && p.videoId == sid) = true
  · rw [if_pos h]
    obtain ⟨p, hp, hpp⟩ := List.any_eq_true.mp h
    cases hfind : ps.find? (fun p => p.userId == uid && p.videoId == sid) with
    | none => exact absurd hpp (List.find?_eq_none.mp hfind p hp)
    | some q => exact ⟨q, rfl⟩
  · rw [if_neg h]
    refine ⟨{ userId := uid, videoId := sid }, ?_⟩
    rw [List.find?_append]
    have hnone : ps.find? (fun p => p.userId == uid && p.videoId == sid) = none := by
      rw [List.find?_eq_none]
      intro x hx hxp
      exact h (List.any_eq_true.mpr ⟨x, hx, hxp⟩)
    rw [hnone]
    simp [List.find?]

/-- The upsert normalizes the key's row count to exactly one, provided the
store's unique constraint held before (at most one row with the key). -/
theorem upsertPerm_count (uid sid : Nat) (ps : List Permission)
    (h : permKeyCount uid sid ps ≤ 1) :
    permKeyCount uid sid (upsertPerm uid sid ps) = 1 := by
  unfold upsertPerm
  by_cases hany : ps.any (fun p => p.userId == uid && p.videoId == sid) = true
  · rw [if_pos hany]
    obtain ⟨p, hp, hpp⟩ := List.any_eq_true.mp hany
    have hpos : 0 < permKeyCount uid sid ps :=
      List.countP_pos_iff.mpr ⟨p, hp, hpp⟩
    omega
  · rw [if_neg hany]
    unfold permKeyCount at h ⊢
    rw [List.countP_append]
    have hzero : ps.countP (fun p => p.userId == uid && p.videoId == sid) = 0 := by
      rw [List.countP_eq_zero]
      intro x hx hxp
      exact hany (List.any_eq_true.mpr ⟨x, hx, hxp⟩)
    rw [hzero]
    simp [List.countP_cons]

/-! ### C3 — accepting N times grants exactly one Permission row -/

/-- Induction core for C3: along any run of accepts by the `toId`, the key's
row count becomes and stays one, and when the row was already present the
permissions list is never touched at all. -/
theorem iterAccept_aux (u rid fid sid : Nat) :
    ∀ (n : Nat) (db : DB) (r : Request),
      findRequest db rid = some r → r.toId = u → r.fromId = fid → r.skillId = sid →
      permKeyCount fid sid db.permissions ≤ 1 →
      (1 ≤ n → permKeyCount fid sid ((iterAccept u rid n db).permissions) = 1) ∧
      (db.permissions.any (fun p => p.userId == fid && p.videoId == sid) = true →
        (iterAccept u rid n db).permissions = db.permissions)
  | 0, db, r => by
    intro _ _ _ _ _
    exact ⟨fun h => absurd h (by omega), fun _ => rfl⟩
  | n + 1, db, r => by
    intro hr hto hfid hsid hcount
    have hstep : (acceptRequest u rid db).2 =
        { db with requests := setStatus rid ReqStatus.accepted db.requests,
                  permissions := upsertPerm fid sid db.permissions } := by
      subst hfid hsid
      simp [acceptRequest, hr, hto]
    have hfind₁ : findRequest (acceptRequest u rid db).2 rid =
        some { r with status := ReqStatus.accepted } := by
      rw [hstep]
      exact find_setStatus_some rid ReqStatus.accepted hr
    have hcount₁ : permKeyCount fid sid (acceptRequest u rid db).2.permissions = 1 := by
      rw [hstep]
      exact upsertPerm_count fid sid db.permissions hcount
    have ih := iterAccept_aux u rid fid sid n (acceptRequest u rid db).2
      { r with status := ReqStatus.accepted } hfind₁ hto hfid hsid (le_of_eq hcount₁)
    constructor
    · intro _
      show permKeyCount fid sid ((iterAccept u rid n (acceptRequest u rid db).2).permissions) = 1
      cases n with
      | zero => exact hcount₁
      | succ m => exact ih.1 (by omega)
    · intro hany
      have hkeep : (acceptRequest u rid db).2.permissions = db.permissions := by
        rw [hstep]
        exact upsertPerm_of_found hany
      show (iterAccept u rid n (acceptRequest u rid db).2).permissions = db.permissions
      rw [ih.2 (by rw [hkeep]; exact hany), hkeep]

/-- C3: when the `toId` accepts a request N ≥ 1 times, the store ends with
exactly one Permission row for the key (fromId, skillId) — assuming the
store's unique constraint held before — and when the row already existed
the permissions list is left entirely unchanged, with no error raised. -/
theorem C3_accept_idempotent (u rid : Nat) (db : DB) (r : Request)
    (hr : findRequest db rid = some r) (hto : r.toId = u)
    (hkey : permKeyCount r.fromId r.skillId db.permissions ≤ 1) :
    (∀ n, 1 ≤ n →
      permKeyCount r.fromId r.skillId ((iterAccept u rid n db).permissions) = 1) ∧
    (findPerm db r.fromId r.skillId ≠ none →
      ∀ n, (iterAccept u rid n db).permissions = db.permissions) := by
  constructor
  · intro n hn
    exact (iterAccept_aux u rid r.fromId r.skillId n db r hr hto rfl rfl hkey).1 hn
  · intro hex n
    have hany : db.permissions.any
        (fun p => p.userId == r.fromId && p.videoId == r.skillId) = true := by
      cases hfind : db.permissions.find?
          (fun p => p.userId == r.fromId && p.videoId == r.skillId) with
      | none => exact absurd hfind hex
      | some p =>
        exact List.any_eq_true.mpr
          ⟨p, List.mem_of_find?_eq_some hfind,
            List.find?_some (p := fun (q : Permission) => q.userId == r.fromId && q.videoId == r.skillId) hfind⟩
    exact (iterAccept_aux u rid r.fromId r.skillId n db r hr hto rfl rfl hkey).2 hany

/-- C3 witness: accepting request 5 three times leaves exactly one
Permission row for (user 2, skill 1); with the row already present, the
permissions list is untouched by two further accepts. -/
theorem C3_accept_idempotent_witness :
    permKeyCount reqA.fromId reqA.skillId ((iterAccept 1 5 3 dbReq).permissions) = 1 ∧
    (iterAccept 1 5 2 { dbReq with
        permissions := [{ userId := 2, videoId := 1 }] }).permissions =
      [{ userId := 2, videoId := 1 }] := by
  constructor
  · exact (C3_accept_idempotent 1 5 dbReq reqA (by decide) (by decide) (by decide)).1
      3 (by omega)
  · exact (C3_accept_idempotent 1 5
      { dbReq with permissions := [{ userId := 2, videoId := 1 }] } reqA
      (by decide) (by decide) (by decide)).2 (by decide) 2

/-! ### C4 — the stream gate -/

/-- Store for the stream counterexample: skill 1 exists, owned by user 1,
but its file is not in the upload directory. -/
def dbNoFile : DB :=
  { skills := [skA], wants := [], requests := [], permissions := [],
    files := [], nextId := 2 }

/-- C4 counterexample: the claim says streaming succeeds whenever the
viewer owns the skill, but with the stored file missing the owner of
skill 1 gets `NotFound`, not the media bytes. -/
theorem C4_stream_counterexample :
    ¬ (∀ (v s : Nat) (db : DB) (video : Skill),
        findSkill db s = some video → video.ownerId = v →
        ∃ bytes, streamVideo v s db = Except.ok bytes) := by
  intro h
  obtain ⟨b, hb⟩ := h 1 1 dbNoFile skA (by decide) (by decide)
  have hc : streamVideo 1 1 dbNoFile = .error .NotFound := rfl
  rw [hc] at hb
  exact Except.noConfusion hb

/-- C4 (amended): the stream gate checks skill existence, authorization
and stored-file existence in that order: `NotFound` when the skill record
is absent; `Forbidden` when the skill exists but the viewer neither owns
it nor holds a Permission row (even if the file is missing); `NotFound`
when the viewer is authorized but the stored file is missing; the media
otherwise.  And after its request is accepted by the skill's owner, the
requester streams the skill successfully whenever the file is stored. -/
theorem C4_stream_gate (v s : Nat) (db : DB) :
    (findSkill db s = none → streamVideo v s db = .error .NotFound) ∧
    (∀ video, findSkill db s = some video →
      (video.ownerId ≠ v → findPerm db v s = none →
        streamVideo v s db = .error .Forbidden) ∧
      ((video.ownerId = v ∨ findPerm db v s ≠ none) →
        (video.videoPath ∈ db.files → streamVideo v s db = .ok video.videoPath) ∧
        (¬ video.videoPath ∈ db.files → streamVideo v s db = .error .NotFound))) ∧
    (∀ rid r video, findRequest db rid = some r →
      findSkill db r.skillId = some video → video.videoPath ∈ db.files →
      streamVideo r.fromId r.skillId (acceptRequest r.toId rid db).2 =
        .ok video.videoPath) := by
  refine ⟨?_, ?_, ?_⟩
  · intro h
    simp [streamVideo, h]
  · intro video hv
    constructor
    · intro ho hp
      simp [streamVideo, hv, hp, ho]
    · intro hauth
      rcases hauth with ho | hp
      · constructor
        · intro hfile
          simp [streamVideo, hv, ho, hfile]
        · intro hfile
          simp [streamVideo, hv, ho, hfile]
      · obtain ⟨p, hp'⟩ := Option.ne_none_iff_exists'.mp hp
        constructor
        · intro hfile
          simp [streamVideo, hv, hp', hfile]
        · intro hfile
          simp [streamVideo, hv, hp', hfile]
  · intro rid r video hr hv hfile
    have hstep : (acceptRequest r.toId rid db).2 =
        { db with requests := setStatus rid ReqStatus.accepted db.requests,
                  permissions := upsertPerm r.fromId r.skillId db.permissions } := by
      simp [acceptRequest, hr]
    rw [hstep]
    obtain ⟨p, hp⟩ := upsertPerm_find r.fromId r.skillId db.permissions
    have hsk2 : findSkill
        { db with requests := setStatus rid ReqStatus.accepted db.requests,
                  permissions := upsertPerm r.fromId r.skillId db.permissions }
        r.skillId = some video := hv
    have hp2 : findPerm
        { db with requests := setStatus rid ReqStatus.accepted db.requests,
                  permissions := upsertPerm r.fromId r.skillId db.permissions }
        r.fromId r.skillId = some p := hp
    simp [streamVideo, hsk2, hp2, hfile]

/-- C4 witness (for the amended claim): user 2, unauthorized, gets
`Forbidden` on skill 1 even though the file is missing in `dbNoFile`; the
owner with the file stored (in `dbReq`) streams it; and after user 1
accepts request 5, user 2 streams skill 1. -/
theorem C4_stream_gate_witness :
    streamVideo 2 1 dbNoFile = .error .Forbidden ∧
    streamVideo 1 1 dbReq = .ok "v1.mp4" ∧
    streamVideo 2 1 (acceptRequest 1 5 dbReq).2 = .ok "v1.mp4" := by
  refine ⟨?_, ?_, ?_⟩
  · exact (((C4_stream_gate 2 1 dbNoFile).2.1 skA (by decide)).1 (by decide) (by decide))
  · exact ((((C4_stream_gate 1 1 dbReq).2.1 skA (by decide)).2 (Or.inl (by decide))).1
      (by decide))
  · have h := (C4_stream_gate 2 1 dbReq).2.2 5 reqA skA (by decide) (by decide) (by decide)
    exact h

/-! ### C8 — creation-time validation -/

/-- Empty store for the creation tests. -/
def dbEmpty : DB :=
  { skills := [], wants := [], requests := [], permissions := [],
    files := [], nextId := 1 }

/-- C8 counterexample: with an empty (rather than missing) title and a
video file present, skill creation succeeds and stores a row, and want
creation succeeds and stores a row — where the claim demands a
`ValidationError` and no stored record. -/
theorem C8_validation_counterexample :
    (createSkill 1 (some "") none true "v.mp4" dbEmpty).1 =
      .ok { id := 1, title := "", description := none, videoPath := "v.mp4",
            ownerId := 1, createdAt := 1 } ∧
    (createSkill 1 (some "") none true "v.mp4" dbEmpty).2.skills =
      [{ id := 1, title := "", description := none, videoPath := "v.mp4",
         ownerId := 1, createdAt := 1 }] ∧
    (createWant 1 (some "") none dbEmpty).1 =
      .ok { id := 1, title := "", description := none, ownerId := 1, createdAt := 1 } ∧
    (createWant 1 (some "") none dbEmpty).2.wants =
      [{ id := 1, title := "", description := none, ownerId := 1, createdAt := 1 }] :=
  ⟨rfl, rfl, rfl, rfl⟩

/-- C8 (amended): skill creation validates only the presence of the
uploaded video file — a missing file fails with `ValidationError` and
stores nothing; a missing title is rejected by the storage layer (no row
stored) rather than by a handler check; an empty title is accepted and a
row is stored.  Want creation has no handler validation at all: a missing
title is rejected by the storage layer, an empty title is stored. -/
theorem C8_creation_validation (uid : Nat) (t d : Option String) (fn : String) (db : DB) :
    createSkill uid t d false fn db = (.error .ValidationError, db) ∧
    createSkill uid none d true fn db = (.error .DbError, db) ∧
    (∃ sk, createSkill uid (some "") d true fn db =
      (.ok sk, { db with skills := db.skills ++ [sk], nextId := db.nextId + 1 }) ∧
      sk.title = "") ∧
    createWant uid none d db = (.error .DbError, db) ∧
    (∃ w, createWant uid (some "") d db =
      (.ok w, { db with wants := db.wants ++ [w], nextId := db.nextId + 1 }) ∧
      w.title = "") :=
  ⟨rfl, rfl, ⟨_, rfl, rfl⟩, rfl, ⟨_, rfl, rfl⟩⟩

/-! ### C10 — request creation never consults the Permission table -/

/-- Permission row granting user 2 access to skill 1. -/
def permA : Permission := { userId := 2, videoId := 1 }

/-- Store where user 2 already holds a Permission row for skill 1 and has
no pending request. -/
def dbPerm : DB :=
  { skills := [skA], wants := [], requests := [], permissions := [permA],
    files := ["v1.mp4"], nextId := 9 }

/-- C10: a user who already holds a Permission row for a skill (without
owning it and with no pending request) can still create a request for it;
the create path never reads the Permission table. -/
theorem C10_create_ignores_permission (u s : Nat) (db : DB) (video : Skill)
    (hsk : findSkill db s = some video) (hown : video.ownerId ≠ u)
    (hpend : findPending db u s = none)
    (hperm : ({ userId := u, videoId := s } : Permission) ∈ db.permissions) :
    ∃ r db₁, createRequest u s db = (.ok r, db₁) ∧ r.status = ReqStatus.pending ∧
      r.fromId = u ∧ r.skillId = s ∧ r.toId = video.ownerId ∧
      db₁.requests = db.requests ++ [r] := by
  have hc : createRequest u s db =
      (.ok { id := db.nextId, fromId := u, toId := video.ownerId, skillId := s,
             status := ReqStatus.pending, createdAt := db.nextId },
       { db with
          requests := db.requests ++
            [{ id := db.nextId, fromId := u, toId := video.ownerId, skillId := s,
               status := ReqStatus.pending, createdAt := db.nextId }],
          nextId := db.nextId + 1 }) := by
    simp [createRequest, hsk, hown, hpend]
  exact ⟨_, _, hc, rfl, rfl, rfl, rfl, rfl⟩

/-- C10 witness: user 2 holds `permA` for skill 1 in `dbPerm`, yet creating
a request for skill 1 succeeds with a fresh pending request. -/
theorem C10_create_ignores_permission_witness :
    ∃ r db₁, createRequest 2 1 dbPerm = (.ok r, db₁) ∧ r.status = ReqStatus.pending ∧
      r.fromId = 2 ∧ r.skillId = 1 ∧ r.toId = skA.ownerId ∧
      db₁.requests = dbPerm.requests ++ [r] :=
  C10_create_ignores_permission 2 1 dbPerm skA (by decide) (by decide) (by decide)
    (by decide)

/-! ### C1 — request creation and its three failure modes -/

/-- Request creation succeeds when the skill exists, the requester is not
its owner and no pending request exists, inserting the new pending row. -/
theorem create_ok (u s : Nat) (db : DB) (v : Skill)
    (hv : findSkill db s = some v) (ho : v.ownerId ≠ u)
    (hp : findPending db u s = none) :
    createRequest u s db =
      (.ok { id := db.nextId, fromId := u, toId := v.ownerId, skillId := s,
             status := ReqStatus.pending, createdAt := db.nextId },
       { db with
          requests := db.requests ++
            [{ id := db.nextId, fromId := u, toId := v.ownerId, skillId := s,
               status := ReqStatus.pending, createdAt := db.nextId }],
          nextId := db.nextId + 1 }) := by
  simp [createRequest, hv, ho, hp]

/-- Request creation answers `Conflict` when a pending row is found. -/
theorem conflict_after_create (u s : Nat) (db₁ : DB) (v : Skill) (nr : Request)
    (hsk : findSkill db₁ s = some v) (ho : v.ownerId ≠ u)
    (hfind : findPending db₁ u s = some nr) :
    createRequest u s db₁ = (.error .Conflict, db₁) := by
  simp [createRequest, hsk, ho, hfind]

/-- Appending a fresh pending row for (u, s) to a store with no pending row
for (u, s) makes the pending lookup find exactly the new row. -/
theorem findPending_append_self (u s : Nat) (db : DB) (nr : Request)
    (hp : findPending db u s = none) (hfrom : nr.fromId = u) (hskill : nr.skillId = s)
    (hstatus : nr.status = ReqStatus.pending) :
    (db.requests ++ [nr]).find?
      (fun r => r.fromId == u && r.skillId == s && r.status == ReqStatus.pending) =
      some nr := by
  rw [List.find?_append]
  rw [show db.requests.find?
      (fun r => r.fromId == u && r.skillId == s && r.status == ReqStatus.pending) =
      none from hp]
  rw [Option.none_or]
  exact List.find?_cons_of_pos
    (p := fun r => r.fromId == u && r.skillId == s && r.status == ReqStatus.pending)
    (a := nr) [] (by simp [hfrom, hskill, hstatus])

/-- Appending a row with a fresh id makes the id lookup find exactly it. -/
theorem findRequest_append_fresh (db : DB) (nr : Request)
    (hfresh : ∀ q ∈ db.requests, q.id ≠ nr.id) :
    (db.requests ++ [nr]).find? (fun q => q.id == nr.id) = some nr := by
  rw [List.find?_append]
  have h1 : db.requests.find? (fun q => q.id == nr.id) = none :=
    List.find?_eq_none.mpr (fun q hq => by simpa using hfresh q hq)
  rw [h1, Option.none_or]
  exact List.find?_cons_of_pos (p := fun q => q.id == nr.id) (a := nr) [] (by simp)

/-- A successful accept, as a plain equation. -/
theorem accept_ok (u rid : Nat) (db : DB) (r : Request)
    (hr : findRequest db rid = some r) (hto : r.toId = u) :
    acceptRequest u rid db =
      (.ok { r with status := ReqStatus.accepted },
       { db with requests := setStatus rid ReqStatus.accepted db.requests,
                 permissions := upsertPerm r.fromId r.skillId db.permissions }) := by
  simp [acceptRequest, hr, hto]

/-- A successful decline, as a plain equation. -/
theorem decline_ok (u rid : Nat) (db : DB) (r : Request)
    (hr : findRequest db rid = some r) (hto : r.toId = u) :
    declineRequest u rid db =
      (.ok { r with status := ReqStatus.declined },
       { db with requests := setStatus rid ReqStatus.declined db.requests }) := by
  simp [declineRequest, hr, hto]

/-- After rewriting the (unique) pending row's status to a non-pending
value, the pending lookup for (u, s) finds nothing. -/
theorem pending_none_after_resolve (u s rid : Nat) (st : ReqStatus)
    (hst : (st == ReqStatus.pending) = false) (rs : List Request)
    (h : ∀ q ∈ rs,
      (q.fromId == u && q.skillId == s && q.status == ReqStatus.pending) = true →
      q.id = rid) :
    (setStatus rid st rs).find?
      (fun q => q.fromId == u && q.skillId == s && q.status == ReqStatus.pending) =
      none := by
  apply List.find?_eq_none.mpr
  intro x hx
  simp only [setStatus] at hx
  obtain ⟨a, ha, rfl⟩ := List.mem_map.mp hx
  by_cases hid : (a.id == rid) = true
  · rw [if_pos hid]
    simp [hst]
  · rw [if_neg hid]
    intro hpx
    exact hid (by simp [h a ha hpx])

/-- The success branch of C1, including the Conflict on a second create and
the successful re-create after the first request is resolved either way. -/
theorem create_resolve_create (u s : Nat) (db : DB) (v : Skill)
    (hfresh : ∀ q ∈ db.requests, q.id ≠ db.nextId)
    (hv : findSkill db s = some v) (ho : v.ownerId ≠ u)
    (hpend : findPending db u s = none) :
    ∃ r db₁,
      createRequest u s db = (.ok r, db₁) ∧
      r.status = ReqStatus.pending ∧ r.toId = v.ownerId ∧
      r.fromId = u ∧ r.skillId = s ∧
      db₁.requests = db.requests ++ [r] ∧
      createRequest u s db₁ = (.error .Conflict, db₁) ∧
      (∃ r₂ db₂, acceptRequest v.ownerId r.id db₁ = (.ok r₂, db₂) ∧
        ∃ r₃ db₃, createRequest u s db₂ = (.ok r₃, db₃) ∧
          r₃.status = ReqStatus.pending) ∧
      (∃ r₂ db₂, declineRequest v.ownerId r.id db₁ = (.ok r₂, db₂) ∧
        ∃ r₃ db₃, createRequest u s db₂ = (.ok r₃, db₃) ∧
          r₃.status = ReqStatus.pending) := by
  have hc := create_ok u s db v hv ho hpend
  refine ⟨_, _, hc, rfl, rfl, rfl, rfl, rfl, ?_, ?_, ?_⟩
  · exact conflict_after_create u s _ v _ hv ho
      (findPending_append_self u s db _ hpend rfl rfl rfl)
  · have hreq₁ := findRequest_append_fresh db
      { id := db.nextId, fromId := u, toId := v.ownerId, skillId := s,
        status := ReqStatus.pending, createdAt := db.nextId }
      (fun q hq => hfresh q hq)
    have ha := accept_ok v.ownerId db.nextId
      { db with
         requests := db.requests ++
           [{ id := db.nextId, fromId := u, toId := v.ownerId, skillId := s,
              status := ReqStatus.pending, createdAt := db.nextId }],
         nextId := db.nextId + 1 }
      { id := db.nextId, fromId := u, toId := v.ownerId, skillId := s,
        status := ReqStatus.pending, createdAt := db.nextId }
      hreq₁ rfl
    have hall : ∀ q ∈ db.requests ++
        [{ id := db.nextId, fromId := u, toId := v.ownerId, skillId := s,
           status := ReqStatus.pending, createdAt := db.nextId }],
        (q.fromId == u && q.skillId == s && q.status == ReqStatus.pending) = true →
        q.id = db.nextId := by
      intro q hq hpq
      rcases List.mem_append.mp hq with h1 | h2
      · exact absurd hpq (List.find?_eq_none.mp hpend q h1)
      · rw [List.mem_singleton.mp h2]
    refine ⟨_, _, ha, _, _, create_ok u s _ v hv ho ?_, rfl⟩
    exact pending_none_after_resolve u s db.nextId ReqStatus.accepted rfl _ hall
  · have hreq₁ := findRequest_append_fresh db
      { id := db.nextId, fromId := u, toId := v.ownerId, skillId := s,
        status := ReqStatus.pending, createdAt := db.nextId }
      (fun q hq => hfresh q hq)
    have hd := decline_ok v.ownerId db.nextId
      { db with
         requests := db.requests ++
           [{ id := db.nextId, fromId := u, toId := v.ownerId, skillId := s,
              status := ReqStatus.pending, createdAt := db.nextId }],
         nextId := db.nextId + 1 }
      { id := db.nextId, fromId := u, toId := v.ownerId, skillId := s,
        status := ReqStatus.pending, createdAt := db.nextId }
      hreq₁ rfl
    have hall : ∀ q ∈ db.requests ++
        [{ id := db.nextId, fromId := u, toId := v.ownerId, skillId := s,
           status := ReqStatus.pending, createdAt := db.nextId }],
        (q.fromId == u && q.skillId == s && q.status == ReqStatus.pending) = true →
        q.id = db.nextId := by
      intro q hq hpq
      rcases List.mem_append.mp hq with h1 | h2
      · exact absurd hpq (List.find?_eq_none.mp hpend q h1)
      · rw [List.mem_singleton.mp h2]
    refine ⟨_, _, hd, _, _, create_ok u s _ v hv ho ?_, rfl⟩
    exact pending_none_after_resolve u s db.nextId ReqStatus.declined rfl _ hall

/-- C1: creating a request for (u, s) answers `NotFound` when the skill is
absent, `InvalidOperation` when u owns it, `Conflict` when a pending
request for (u, s) exists; otherwise it inserts and returns a fresh
pending request addressed to the skill's owner.  While that request is
pending a second create for (u, s) answers `Conflict`, and once it is
resolved — accepted or declined by the owner — a new create for (u, s)
succeeds again. -/
theorem C1_create_request (u s : Nat) (db : DB)
    (hfresh : ∀ q ∈ db.requests, q.id ≠ db.nextId) :
    (findSkill db s = none → createRequest u s db = (.error .NotFound, db)) ∧
    (∀ video, findSkill db s = some video → video.ownerId = u →
      createRequest u s db = (.error .InvalidOperation, db)) ∧
    (∀ video p, findSkill db s = some video → video.ownerId ≠ u →
      findPending db u s = some p →
      createRequest u s db = (.error .Conflict, db)) ∧
    (∀ video, findSkill db s = some video → video.ownerId ≠ u →
      findPending db u s = none →
      ∃ r db₁,
        createRequest u s db = (.ok r, db₁) ∧
        r.status = ReqStatus.pending ∧ r.toId = video.ownerId ∧
        r.fromId = u ∧ r.skillId = s ∧
        db₁.requests = db.requests ++ [r] ∧
        createRequest u s db₁ = (.error .Conflict, db₁) ∧
        (∃ r₂ db₂, acceptRequest video.ownerId r.id db₁ = (.ok r₂, db₂) ∧
          ∃ r₃ db₃, createRequest u s db₂ = (.ok r₃, db₃) ∧
            r₃.status = ReqStatus.pending) ∧
        (∃ r₂ db₂, declineRequest video.ownerId r.id db₁ = (.ok r₂, db₂) ∧
          ∃ r₃ db₃, createRequest u s db₂ = (.ok r₃, db₃) ∧
            r₃.status = ReqStatus.pending)) := by
  refine ⟨?_, ?_, ?_, ?_⟩
  · intro h
    simp [createRequest, h]
  · intro video hv hown
    simp [createRequest, hv, hown]
  · intro video p hv hown hpend
    simp [createRequest, hv, hown, hpend]
  · intro video hv hown hpend
    exact create_resolve_create u s db video hfresh hv hown hpend

/-- C1 witness: user 2 requests skill 1 in a fresh store; the create
succeeds pending, a second create conflicts, and after the owner resolves
it (either way) a new create succeeds. -/
theorem C1_create_request_witness :
    ∃ r db₁,
      createRequest 2 1 dbNoFile = (.ok r, db₁) ∧
      r.status = ReqStatus.pending ∧ r.toId = skA.ownerId ∧
      r.fromId = 2 ∧ r.skillId = 1 ∧
      db₁.requests = dbNoFile.requests ++ [r] ∧
      createRequest 2 1 db₁ = (.error .Conflict, db₁) ∧
      (∃ r₂ db₂, acceptRequest skA.ownerId r.id db₁ = (.ok r₂, db₂) ∧
        ∃ r₃ db₃, createRequest 2 1 db₂ = (.ok r₃, db₃) ∧
          r₃.status = ReqStatus.pending) ∧
      (∃ r₂ db₂, declineRequest skA.ownerId r.id db₁ = (.ok r₂, db₂) ∧
        ∃ r₃ db₃, createRequest 2 1 db₂ = (.ok r₃, db₃) ∧
          r₃.status = ReqStatus.pending) :=
  (C1_create_request 2 1 dbNoFile (by decide)).2.2.2 skA (by decide) (by decide)
    (by decide)

end SkillExchange
